import Mathlib

/-!
Verification development for a 1D quantum-harmonic-oscillator solver
(finite-element method and shooting method).

The Python sources are shallowly embedded below.  Floating-point values
are modelled as exact rationals, except for the normalisation step whose
square root forces real numbers.  External numeric providers (sparse
eigensolver, ODE integrator, bracketed root finder) are modelled as
oracle parameters whose shape contracts appear as hypotheses.
-/

namespace Devoir3

/-! ### Grid (mef.py, class Grille) -/

/-- Error raised by `Grille.__init__` when the points are not ordered
(`ValueError("les points ne sont pas ordonnés")`). -/
inductive ErreurGrille where
  | pointsNonOrdonnes : ErreurGrille
deriving DecidableEq

/-- Embedding of `Grille.__init__`: it checks
`np.any((points[1:] - points[:-1]) < 0.0)` and raises on a decreasing
adjacent pair, otherwise stores the points unchanged. -/
def Grille.init (points : List ℚ) : Except ErreurGrille (List ℚ) :=
  if ((points.drop 1).zip points).any (fun q => decide (q.1 - q.2 < 0)) then
    Except.error ErreurGrille.pointsNonOrdonnes
  else
    Except.ok points

/-- Embedding of `Grille.matrice_masse_interne`.  The `(n-2) x (n-2)`
sparse matrix is represented as its entry function; indices outside the
matrix give `0`.  The diagonal loop runs over `site in range(1, n-1)`
writing `(points[site+1] - points[site-1]) / 3` at `(site-1, site-1)`;
the off-diagonal loop runs over `site in range(1, n-2)` writing
`(points[site+1] - points[site]) / 6` at `(site-1, site)` and
`(site, site-1)`. -/
def matrice_masse_interne (p : List ℚ) (i j : ℕ) : ℚ :=
  if i < p.length - 2 ∧ j < p.length - 2 then
    if i = j then (p.getD (i + 2) 0 - p.getD i 0) / 3
    else if j = i + 1 then (p.getD (j + 1) 0 - p.getD j 0) / 6
    else if i = j + 1 then (p.getD (i + 1) 0 - p.getD i 0) / 6
    else 0
  else 0

/-- Embedding of `Grille.matrice_laplacienne_interne`.  The diagonal
loop writes `sum(1 / (points[k] - points[k+1]) for k in [site-1, site])`
at `(site-1, site-1)`; the off-diagonal loop writes
`1 / (points[site+1] - points[site])` at `(site-1, site)` and
`(site, site-1)`. -/
def matrice_laplacienne_interne (p : List ℚ) (i j : ℕ) : ℚ :=
  if i < p.length - 2 ∧ j < p.length - 2 then
    if i = j then
      1 / (p.getD i 0 - p.getD (i + 1) 0) + 1 / (p.getD (i + 1) 0 - p.getD (i + 2) 0)
    else if j = i + 1 then 1 / (p.getD (j + 1) 0 - p.getD j 0)
    else if i = j + 1 then 1 / (p.getD (i + 1) 0 - p.getD i 0)
    else 0
  else 0

/-! ### Root bracketing (methode_tir.py and its near-duplicate mt.py) -/

/-- Embedding of `np.isclose(a, b, rtol=rtol)` with the default absolute
tolerance `atol = 1e-08`: the test is `|a - b| <= atol + rtol * |b|`. -/
def isclose (a b rtol : ℚ) : Bool :=
  decide (|a - b| ≤ 1 / 100000000 + rtol * |b|)

/-- Probe loop of `generateur_cadre`: with the counter at `i` and `rem`
iterations left, test `val_1 = val_0 + i * D` against the near-negation
condition `np.isclose(-f_0, f_1, rtol=rtol)` and return `(val_0, val_1)`
at the first success, `none` when the iteration budget runs out. -/
def generateur_cadre_go (f : ℚ → ℚ) (val_0 f_0 D rtol : ℚ) : ℕ → ℕ → Option (ℚ × ℚ)
  | _, 0 => none
  | i, rem + 1 =>
      let val_1 := val_0 + (i : ℚ) * D
      if isclose (-f_0) (f val_1) rtol then some (val_0, val_1)
      else generateur_cadre_go f val_0 f_0 D rtol (i + 1) rem

/-- Embedding of `generateur_cadre(func, val_0, D, rtol, max_iter)`
(identical in `methode_tir.py` and `mt.py`): compute `f_0 = func(val_0)`
once, then probe `val_0 + i*D` for `i = 1..max_iter`. -/
def generateur_cadre (f : ℚ → ℚ) (val_0 D rtol : ℚ) (max_iter : ℕ) : Option (ℚ × ℚ) :=
  generateur_cadre_go f val_0 (f val_0) D rtol 1 max_iter

/-- Scan loop shared by the two `trouver_premiers_cadres` variants:
`while val_0 < val_max and len(liste_cadres) < bound`, try one window
with `generateur_cadre`, append its bracket when found, then advance the
origin by `abs(D) * max_iter`.  The Python `while` loop carries no bound,
so the embedding takes an explicit `fuel`; `none` means the fuel ran out
before the loop exited, and `some (v, l)` returns the final origin `v`
together with the bracket list `l`.  `methode_tir.py` instantiates
`bound := 6` (a hardcoded constant) and `mt.py` instantiates `bound := N`. -/
def cadres_go (f : ℚ → ℚ) (D rtol : ℚ) (max_iter : ℕ) (val_max : ℚ) (bound : ℕ) :
    ℕ → ℚ → List (ℚ × ℚ) → Option (ℚ × List (ℚ × ℚ))
  | 0, _, _ => none
  | fuel + 1, val_0, acc =>
      if val_0 < val_max ∧ acc.length < bound then
        let acc' := match generateur_cadre f val_0 D rtol max_iter with
          | some cadre => acc ++ [cadre]
          | none => acc
        cadres_go f D rtol max_iter val_max bound fuel (val_0 + |D| * (max_iter : ℚ)) acc'
      else some (val_0, acc)

/-- Embedding of `trouver_premiers_cadres` from `methode_tir.py`: the
loop condition is `len(liste_cadres) < 6` (the parameter `N` is accepted
but unused), and the list is returned with no error check. -/
def methode_tir_trouver_premiers_cadres (f : ℚ → ℚ) (val_0 : ℚ) (N : ℕ) (D rtol : ℚ)
    (max_iter : ℕ) (val_max : ℚ) (fuel : ℕ) : Option (List (ℚ × ℚ)) :=
  (cadres_go f D rtol max_iter val_max 6 fuel val_0 []).map (fun r => r.2)

/-- Error raised by `trouver_premiers_cadres` in `mt.py`
(`RuntimeError(f"Valeur maximale de E={val_max}")`); the spec calls it
`RootSearchExhaustedError`. -/
inductive ErreurTir where
  | valeurMaximale : ℚ → ErreurTir
deriving DecidableEq

/-- Embedding of `trouver_premiers_cadres` from `mt.py`: the loop
condition is `len(liste_cadres) < N`, and after the loop the function
raises `RuntimeError` exactly when `val_max == val_0`. -/
def mt_trouver_premiers_cadres (f : ℚ → ℚ) (val_0 : ℚ) (N : ℕ) (D rtol : ℚ)
    (max_iter : ℕ) (val_max : ℚ) (fuel : ℕ) :
    Option (Except ErreurTir (List (ℚ × ℚ))) :=
  (cadres_go f D rtol max_iter val_max N fuel val_0 []).map
    (fun r =>
      if val_max = r.1 then Except.error (ErreurTir.valeurMaximale val_max)
      else Except.ok r.2)

/-- Embedding of `trouver_premieres_racines` from `methode_tir.py`.  Its
body calls `trouver_premiers_cadres(func, val_0, N, D=-0.01, rtol=0.1,
max_iter=20, val_max=10)` with those literal values, ignoring its own
`D`, `rtol`, `max_iter` and `val_max` arguments, then applies `brentq`
(an external bracketed root finder, taken as an oracle) to each bracket. -/
def trouver_premieres_racines (brentq : (ℚ → ℚ) → ℚ → ℚ → ℚ) (f : ℚ → ℚ)
    (val_0 : ℚ) (N : ℕ) (D rtol : ℚ) (max_iter : ℕ) (val_max : ℚ) (fuel : ℕ) :
    Option (List ℚ) :=
  (methode_tir_trouver_premiers_cadres f val_0 N (-1/100) (1/10) 20 10 fuel).map
    (fun cadres => cadres.map (fun c => brentq f c.1 c.2))

/-! ### Wrapper (OHQ_wrapper.py) -/

/-- Sum of squares `np.sum(np.square(valeurs))`. -/
def sommeCarres (v : List ℝ) : ℝ := (v.map (fun x => x ^ 2)).sum

/-- IEEE-style division: a zero denominator gives a non-finite value
(NaN for the `0/0` case arising in the normaliser), modelled as `none`. -/
noncomputable def divF (x y : ℝ) : Option ℝ :=
  if y = 0 then none else some (x / y)

/-- Embedding of `normaliseur(valeurs)`: the unchecked expression
`valeurs / np.sqrt(np.sum(np.square(valeurs)))`.  There is no zero-norm
check in the source: on an all-zero input every entry becomes the
non-finite `0/0` (NaN), modelled by `divF` returning `none`. -/
noncomputable def normaliseur (valeurs : List ℝ) : List (Option ℝ) :=
  valeurs.map (fun x => divF x (Real.sqrt (sommeCarres valeurs)))

/-- Embedding of `np.linspace(a, b, n)`: `n` evenly spaced points from
`a` to `b`. -/
def linspace (a b : ℚ) (n : ℕ) : List ℚ :=
  (List.range n).map (fun i : ℕ => a + (b - a) * (i : ℚ) / ((n : ℚ) - 1))

/-- Embedding of `solutions_mef(L, N_points, N_sols)` at the level of
array plumbing.  The external sparse providers are oracles: `minvDot`
applies the inverse mass matrix to a coefficient vector, and `eigvals`,
`eigvecs` stand for the output of `sp.linalg.eigsh(L_C, M=..., k=N_sols)`
(`eigvecs` is the list of eigenvector columns, each of length
`N_points - 2` by the eigensolver's contract).  The function returns
`(eigvals, x_grid[1:-1], columns)` where column `i` is
`normaliseur(matrice_masse_inv.dot(eigvecs[:, i]))`. -/
noncomputable def solutions_mef (minvDot : List ℝ → List ℝ) (eigvals : List ℝ)
    (eigvecs : List (List ℝ)) (L : ℚ) (N_points : ℕ) :
    List ℝ × List ℚ × List (List (Option ℝ)) :=
  let x_grid := linspace (-L) L N_points
  (eigvals, (x_grid.drop 1).dropLast,
    eigvecs.map (fun col => normaliseur (minvDot col)))

/-- Embedding of `solutions_mt(L, N_points, N_sols, ...)`.  The ODE
integrator is the oracle `schro`, mapping a trial energy to the
wavefunction values `calcul_Schrodinger(vec_0, x_grid, E)[:, 0]` on the
grid (one value per grid point by `odeint`'s contract); the boundary
function handed to the root search is its last entry `[-1, 0]`.  The
returned triple is `(racines, x_grid, table)` with one table column
`normaliseur(...)` per refined root. -/
noncomputable def solutions_mt (schro : ℚ → List ℚ) (brentq : (ℚ → ℚ) → ℚ → ℚ → ℚ)
    (L : ℚ) (N_points N_sols : ℕ) (val_0 D rtol : ℚ) (max_iter : ℕ) (val_max : ℚ)
    (fuel : ℕ) : Option (List ℚ × List ℚ × List (List (Option ℝ))) :=
  let x_grid := linspace (-L) L N_points
  let BC := fun E => (schro E).getLastD 0
  (trouver_premieres_racines brentq BC val_0 N_sols D rtol max_iter val_max fuel).map
    (fun racines =>
      (racines, x_grid,
        racines.map (fun E => normaliseur ((schro E).map (fun q : ℚ => (q : ℝ))))))

/-! ### Claim C1: mass matrix -/

/-- C1: for every valid grid of `N >= 3` ordered points,
`matrice_masse_interne` is an `(N-2) x (N-2)` symmetric tridiagonal
matrix with diagonal entry `(x[i+1] - x[i-1]) / 3` at interior point `i`
and off-diagonal entry `(x[i+1] - x[i]) / 6` between interior points `i`
and `i+1`, every other entry `0`; on the uniform grid `{0,1,2,3,4}` it
is exactly `[[2/3,1/6,0],[1/6,2/3,1/6],[0,1/6,2/3]]`. -/
theorem matrice_masse_spec :
    (∀ p : List ℚ, 3 ≤ p.length → p.Chain' (fun a b => a ≤ b) →
      (∀ i j, matrice_masse_interne p i j = matrice_masse_interne p j i) ∧
      (∀ i j, p.length - 2 ≤ i ∨ p.length - 2 ≤ j ∨ i + 2 ≤ j ∨ j + 2 ≤ i →
        matrice_masse_interne p i j = 0) ∧
      (∀ i, 1 ≤ i → i < p.length - 1 →
        matrice_masse_interne p (i - 1) (i - 1) =
          (p.getD (i + 1) 0 - p.getD (i - 1) 0) / 3) ∧
      (∀ i, 1 ≤ i → i + 1 < p.length - 1 →
        matrice_masse_interne p (i - 1) i = (p.getD (i + 1) 0 - p.getD i 0) / 6)) ∧
    (∀ i j : Fin 3, matrice_masse_interne [0, 1, 2, 3, 4] (i : ℕ) (j : ℕ) =
      (([[2/3, 1/6, 0], [1/6, 2/3, 1/6], [0, 1/6, 2/3]] : List (List ℚ)).getD i []).getD j 0) := by
  constructor
  · intro p _ _
    refine ⟨?_, ?_, ?_, ?_⟩
    · intro i j
      unfold matrice_masse_interne
      split_ifs <;> first | rfl | omega | (subst_vars; rfl)
    · intro i j h
      unfold matrice_masse_interne
      split_ifs <;> first | rfl | omega
    · intro i h1 h2
      unfold matrice_masse_interne
      rw [if_pos ⟨by omega, by omega⟩, if_pos rfl]
      have e : i - 1 + 2 = i + 1 := by omega
      rw [e]
    · intro i h1 h2
      unfold matrice_masse_interne
      rw [if_pos ⟨by omega, by omega⟩, if_neg (by omega), if_pos (by omega)]
  · intro i j
    fin_cases i <;> fin_cases j <;> norm_num [matrice_masse_interne]

theorem matrice_masse_spec_witness :
    (3 ≤ ([0, 1, 2, 3, 4] : List ℚ).length) ∧
    ([0, 1, 2, 3, 4] : List ℚ).Chain' (fun a b => a ≤ b) ∧
    ((∀ i j, matrice_masse_interne [0, 1, 2, 3, 4] i j =
        matrice_masse_interne [0, 1, 2, 3, 4] j i) ∧
      (∀ i j, ([0, 1, 2, 3, 4] : List ℚ).length - 2 ≤ i ∨
          ([0, 1, 2, 3, 4] : List ℚ).length - 2 ≤ j ∨ i + 2 ≤ j ∨ j + 2 ≤ i →
        matrice_masse_interne [0, 1, 2, 3, 4] i j = 0) ∧
      (∀ i, 1 ≤ i → i < ([0, 1, 2, 3, 4] : List ℚ).length - 1 →
        matrice_masse_interne [0, 1, 2, 3, 4] (i - 1) (i - 1) =
          (([0, 1, 2, 3, 4] : List ℚ).getD (i + 1) 0 -
            ([0, 1, 2, 3, 4] : List ℚ).getD (i - 1) 0) / 3) ∧
      (∀ i, 1 ≤ i → i + 1 < ([0, 1, 2, 3, 4] : List ℚ).length - 1 →
        matrice_masse_interne [0, 1, 2, 3, 4] (i - 1) i =
          (([0, 1, 2, 3, 4] : List ℚ).getD (i + 1) 0 -
            ([0, 1, 2, 3, 4] : List ℚ).getD i 0) / 6)) :=
  ⟨by norm_num, by norm_num [List.chain'_cons],
    matrice_masse_spec.1 [0, 1, 2, 3, 4] (by norm_num) (by norm_num [List.chain'_cons])⟩

/-! ### Claim C2: Laplacian (stiffness) matrix -/

/-- C2: for every valid grid of `N >= 3` strictly ordered points,
`matrice_laplacienne_interne` is an `(N-2) x (N-2)` symmetric
tridiagonal matrix with diagonal entry
`-(1/(x[i] - x[i-1]) + 1/(x[i+1] - x[i]))` at interior point `i` and
off-diagonal entry `1/(x[i+1] - x[i])` between interior points `i` and
`i+1`, every other entry `0`; on the uniform grid `{0,1,2,3,4}` it is
exactly `[[-2,1,0],[1,-2,1],[0,1,-2]]`. -/
theorem matrice_laplacienne_spec :
    (∀ p : List ℚ, 3 ≤ p.length → p.Chain' (fun a b => a < b) →
      (∀ i j, matrice_laplacienne_interne p i j = matrice_laplacienne_interne p j i) ∧
      (∀ i j, p.length - 2 ≤ i ∨ p.length - 2 ≤ j ∨ i + 2 ≤ j ∨ j + 2 ≤ i →
        matrice_laplacienne_interne p i j = 0) ∧
      (∀ i, 1 ≤ i → i < p.length - 1 →
        matrice_laplacienne_interne p (i - 1) (i - 1) =
          -(1 / (p.getD i 0 - p.getD (i - 1) 0) + 1 / (p.getD (i + 1) 0 - p.getD i 0))) ∧
      (∀ i, 1 ≤ i → i + 1 < p.length - 1 →
        matrice_laplacienne_interne p (i - 1) i = 1 / (p.getD (i + 1) 0 - p.getD i 0))) ∧
    (∀ i j : Fin 3, matrice_laplacienne_interne [0, 1, 2, 3, 4] (i : ℕ) (j : ℕ) =
      (([[-2, 1, 0], [1, -2, 1], [0, 1, -2]] : List (List ℚ)).getD i []).getD j 0) := by
  constructor
  · intro p _ _
    refine ⟨?_, ?_, ?_, ?_⟩
    · intro i j
      unfold matrice_laplacienne_interne
      split_ifs <;> first | rfl | omega | (subst_vars; rfl)
    · intro i j h
      unfold matrice_laplacienne_interne
      split_ifs <;> first | rfl | omega
    · intro i h1 h2
      unfold matrice_laplacienne_interne
      rw [if_pos ⟨by omega, by omega⟩, if_pos rfl]
      have e1 : i - 1 + 1 = i := by omega
      have e2 : i - 1 + 2 = i + 1 := by omega
      rw [e1, e2]
      have h3 : p.getD (i - 1) 0 - p.getD i 0 = -(p.getD i 0 - p.getD (i - 1) 0) := by ring
      have h4 : p.getD i 0 - p.getD (i + 1) 0 = -(p.getD (i + 1) 0 - p.getD i 0) := by ring
      rw [h3, h4, one_div, one_div, inv_neg, inv_neg]
      ring
    · intro i h1 h2
      unfold matrice_laplacienne_interne
      rw [if_pos ⟨by omega, by omega⟩, if_neg (by omega), if_pos (by omega)]
  · intro i j
    fin_cases i <;> fin_cases j <;> norm_num [matrice_laplacienne_interne]

theorem matrice_laplacienne_spec_witness :
    (3 ≤ ([0, 1, 2, 3, 4] : List ℚ).length) ∧
    ([0, 1, 2, 3, 4] : List ℚ).Chain' (fun a b => a < b) ∧
    ((∀ i j, matrice_laplacienne_interne [0, 1, 2, 3, 4] i j =
        matrice_laplacienne_interne [0, 1, 2, 3, 4] j i) ∧
      (∀ i j, ([0, 1, 2, 3, 4] : List ℚ).length - 2 ≤ i ∨
          ([0, 1, 2, 3, 4] : List ℚ).length - 2 ≤ j ∨ i + 2 ≤ j ∨ j + 2 ≤ i →
        matrice_laplacienne_interne [0, 1, 2, 3, 4] i j = 0) ∧
      (∀ i, 1 ≤ i → i < ([0, 1, 2, 3, 4] : List ℚ).length - 1 →
        matrice_laplacienne_interne [0, 1, 2, 3, 4] (i - 1) (i - 1) =
          -(1 / (([0, 1, 2, 3, 4] : List ℚ).getD i 0 -
              ([0, 1, 2, 3, 4] : List ℚ).getD (i - 1) 0) +
            1 / (([0, 1, 2, 3, 4] : List ℚ).getD (i + 1) 0 -
              ([0, 1, 2, 3, 4] : List ℚ).getD i 0))) ∧
      (∀ i, 1 ≤ i → i + 1 < ([0, 1, 2, 3, 4] : List ℚ).length - 1 →
        matrice_laplacienne_interne [0, 1, 2, 3, 4] (i - 1) i =
          1 / (([0, 1, 2, 3, 4] : List ℚ).getD (i + 1) 0 -
            ([0, 1, 2, 3, 4] : List ℚ).getD i 0))) :=
  ⟨by norm_num, by norm_num [List.chain'_cons],
    matrice_laplacienne_spec.1 [0, 1, 2, 3, 4] (by norm_num) (by norm_num [List.chain'_cons])⟩

/-! ### Claim C8: grid validation -/

/-- The boolean test of `Grille.__init__` detects exactly a violation of
adjacent ordering: some adjacent pair decreases iff the points are not
`Chain'`-ordered by `≤`. -/
lemma any_zip_lt_iff (p : List ℚ) :
    (((p.drop 1).zip p).any (fun q => decide (q.1 - q.2 < 0)) = true) ↔
      ¬ p.Chain' (fun a b => a ≤ b) := by
  induction p with
  | nil => simp
  | cons x t ih =>
    cases t with
    | nil => simp
    | cons y t' =>
      have hd : ((y :: t').drop 1) = t' := rfl
      rw [show ((x :: y :: t').drop 1) = y :: t' from rfl, List.zip_cons_cons,
        List.any_cons, List.chain'_cons]
      rw [hd] at ih
      simp only [Bool.or_eq_true, decide_eq_true_eq, ih]
      rw [not_and_or, not_le, sub_neg]

/-- C8: `Grille` construction fails (with the unordered-points error)
iff some adjacent pair of the input decreases; otherwise — including
inputs with equal adjacent points — it succeeds and stores exactly the
input sequence. -/
theorem grille_init_spec (points : List ℚ) :
    (Grille.init points = Except.error ErreurGrille.pointsNonOrdonnes ↔
      ¬ points.Chain' (fun a b => a ≤ b)) ∧
    (points.Chain' (fun a b => a ≤ b) → Grille.init points = Except.ok points) := by
  constructor
  · rw [← any_zip_lt_iff]
    unfold Grille.init
    by_cases h : ((points.drop 1).zip points).any (fun q => decide (q.1 - q.2 < 0)) = true
    · rw [if_pos h]
      exact ⟨fun _ => h, fun _ => rfl⟩
    · rw [if_neg h]
      exact ⟨fun he => by simp at he, fun hh => absurd hh h⟩
  · intro hc
    unfold Grille.init
    rw [if_neg (fun h => (any_zip_lt_iff points).mp h hc)]

theorem grille_init_spec_witness :
    ([0, 0, 1] : List ℚ).Chain' (fun a b => a ≤ b) ∧
    Grille.init [0, 0, 1] = Except.ok [0, 0, 1] :=
  ⟨by norm_num [List.chain'_cons],
    (grille_init_spec [0, 0, 1]).2 (by norm_num [List.chain'_cons])⟩

/-! ### Structure of the brackets produced by the scan -/

/-- A successful probe loop returns the pair `(val_0, val_0 + k * D)`
for some probe index `k` within the iteration window. -/
lemma generateur_cadre_go_shape (f : ℚ → ℚ) (v0 f0 D rtol : ℚ) :
    ∀ (rem i : ℕ) (c : ℚ × ℚ),
      generateur_cadre_go f v0 f0 D rtol i rem = some c →
      c.1 = v0 ∧ ∃ k : ℕ, i ≤ k ∧ k < i + rem ∧ c.2 = v0 + (k : ℚ) * D := by
  intro rem
  induction rem with
  | zero => intro i c h; simp [generateur_cadre_go] at h
  | succ rem ih =>
    intro i c h
    simp only [generateur_cadre_go] at h
    split_ifs at h with hc
    · obtain rfl : (v0, v0 + (i : ℚ) * D) = c := Option.some.inj h
      exact ⟨rfl, i, le_refl i, by omega, rfl⟩
    · obtain ⟨h1, k, hk1, hk2, hk3⟩ := ih (i + 1) c h
      exact ⟨h1, k, by omega, by omega, hk3⟩

/-- Every bracket returned by `generateur_cadre` is
`(val_0, val_0 + k * D)` with `1 ≤ k ≤ max_iter`. -/
lemma generateur_cadre_shape (f : ℚ → ℚ) (v0 D rtol : ℚ) (mi : ℕ) (c : ℚ × ℚ)
    (h : generateur_cadre f v0 D rtol mi = some c) :
    c.1 = v0 ∧ ∃ k : ℕ, 1 ≤ k ∧ k ≤ mi ∧ c.2 = c.1 + (k : ℚ) * D := by
  obtain ⟨h1, k, hk1, hk2, hk3⟩ := generateur_cadre_go_shape f v0 (f v0) D rtol mi 1 c h
  exact ⟨h1, k, hk1, by omega, by rw [h1]; exact hk3⟩

/-- Loop invariant of the bracket scan: when the step `|D| * max_iter`
is positive, every terminating run extends the accumulator only with
brackets of the window shape, and the first components of the produced
list are strictly increasing. -/
lemma cadres_go_spec (f : ℚ → ℚ) (D rtol : ℚ) (mi : ℕ) (vmax : ℚ) (bound : ℕ) :
    ∀ (fuel : ℕ) (v : ℚ) (acc : List (ℚ × ℚ)) (out : ℚ × List (ℚ × ℚ)),
      cadres_go f D rtol mi vmax bound fuel v acc = some out →
      0 < |D| * (mi : ℚ) →
      (∀ c ∈ acc, ∃ k : ℕ, 1 ≤ k ∧ k ≤ mi ∧ c.2 = c.1 + (k : ℚ) * D) →
      acc.Pairwise (fun c d => c.1 < d.1) →
      (∀ c ∈ acc, c.1 < v) →
      (∀ c ∈ out.2, ∃ k : ℕ, 1 ≤ k ∧ k ≤ mi ∧ c.2 = c.1 + (k : ℚ) * D) ∧
        out.2.Pairwise (fun c d => c.1 < d.1) := by
  intro fuel
  induction fuel with
  | zero => intro v acc out h; simp [cadres_go] at h
  | succ fuel ih =>
    intro v acc out h hstep hshape hpair hlt
    simp only [cadres_go] at h
    split_ifs at h with hcond
    · rcases hg : generateur_cadre f v D rtol mi with _ | cad
      · rw [hg] at h
        exact ih _ _ _ h hstep hshape hpair
          (fun c hc => lt_trans (hlt c hc) (by linarith))
      · rw [hg] at h
        obtain ⟨hc1, kc, hkc⟩ := generateur_cadre_shape f v D rtol mi cad hg
        refine ih _ _ _ h hstep ?_ ?_ ?_
        · intro c hc
          rcases List.mem_append.mp hc with hc | hc
          · exact hshape c hc
          · rw [List.mem_singleton.mp hc]
            exact ⟨kc, hkc⟩
        · refine List.pairwise_append.mpr ⟨hpair, List.pairwise_singleton _ _, ?_⟩
          intro a ha b hb
          rw [List.mem_singleton.mp hb, hc1]
          exact hlt a ha
        · intro c hc
          rcases List.mem_append.mp hc with hc | hc
          · exact lt_trans (hlt c hc) (by linarith)
          · rw [List.mem_singleton.mp hc, hc1]
            linarith
    · obtain rfl : (v, acc) = out := Option.some.inj h
      exact ⟨hshape, hpair⟩

/-! ### Claim C5: bracket endpoint order and list order -/

/-- C5 counterexample: with the default negative step the very first
bracket returned is `(0, -1/100)`, whose second component is below the
first, so a bracket is not an ordered pair `(low, high)` with
`low ≤ high`. -/
theorem generateur_cadre_low_high_false :
    generateur_cadre (fun _ => (0 : ℚ)) 0 (-1/100) (1/10) 20 = some (0, -1/100) ∧
    ¬ ((0 : ℚ) ≤ -1/100) := by
  constructor
  · norm_num [generateur_cadre, generateur_cadre_go, isclose]
  · norm_num

/-- C5 amended: every bracket returned by the bracketer is
`(val_0, val_0 + k * D)` with `1 ≤ k ≤ max_iter`, so its second
component is below the first when `D ≤ 0` (the default) and above it
when `0 ≤ D`; and whenever the scan step `|D| * max_iter` is positive
the brackets are returned with strictly increasing first components
(hence no duplicates). -/
theorem cadres_struct (f : ℚ → ℚ) (v0 : ℚ) (N : ℕ) (D rtol : ℚ) (mi : ℕ) (vmax : ℚ)
    (fuel : ℕ) (l : List (ℚ × ℚ))
    (h : methode_tir_trouver_premiers_cadres f v0 N D rtol mi vmax fuel = some l)
    (hstep : 0 < |D| * (mi : ℚ)) :
    (∀ c ∈ l, ∃ k : ℕ, 1 ≤ k ∧ k ≤ mi ∧ c.2 = c.1 + (k : ℚ) * D) ∧
    (∀ c ∈ l, (D ≤ 0 → c.2 ≤ c.1) ∧ (0 ≤ D → c.1 ≤ c.2)) ∧
    l.Pairwise (fun c d => c.1 < d.1) := by
  obtain ⟨out, hgo, hl⟩ := Option.map_eq_some'.mp h
  obtain ⟨hshape, hpair⟩ := cadres_go_spec f D rtol mi vmax 6 fuel v0 [] out hgo hstep
    (by simp) (by simp) (by simp)
  subst hl
  refine ⟨hshape, ?_, hpair⟩
  intro c hc
  obtain ⟨k, _, _, hk⟩ := hshape c hc
  constructor
  · intro hD
    have : (k : ℚ) * D ≤ 0 := mul_nonpos_iff.mpr (Or.inl ⟨Nat.cast_nonneg k, hD⟩)
    linarith [hk]
  · intro hD
    have : (0 : ℚ) ≤ (k : ℚ) * D := mul_nonneg (Nat.cast_nonneg k) hD
    linarith [hk]

set_option maxHeartbeats 2000000 in
theorem cadres_struct_witness :
    methode_tir_trouver_premiers_cadres (fun _ => (0 : ℚ)) 0 3 (-1/100) (1/10) 20 10 10 =
      some [(0, -1/100), (1/5, 19/100), (2/5, 39/100), (3/5, 59/100), (4/5, 79/100), (1, 99/100)] ∧
    (0 : ℚ) < |(-1/100 : ℚ)| * ((20 : ℕ) : ℚ) ∧
    ((∀ c ∈ ([(0, -1/100), (1/5, 19/100), (2/5, 39/100), (3/5, 59/100), (4/5, 79/100),
          (1, 99/100)] : List (ℚ × ℚ)),
        ∃ k : ℕ, 1 ≤ k ∧ k ≤ 20 ∧ c.2 = c.1 + (k : ℚ) * (-1/100)) ∧
      (∀ c ∈ ([(0, -1/100), (1/5, 19/100), (2/5, 39/100), (3/5, 59/100), (4/5, 79/100),
          (1, 99/100)] : List (ℚ × ℚ)),
        ((-1/100 : ℚ) ≤ 0 → c.2 ≤ c.1) ∧ ((0 : ℚ) ≤ -1/100 → c.1 ≤ c.2)) ∧
      ([(0, -1/100), (1/5, 19/100), (2/5, 39/100), (3/5, 59/100), (4/5, 79/100),
          (1, 99/100)] : List (ℚ × ℚ)).Pairwise (fun c d => c.1 < d.1)) :=
  ⟨by norm_num [methode_tir_trouver_premiers_cadres, cadres_go, generateur_cadre,
      generateur_cadre_go, isclose, abs_of_pos],
    by rw [abs_of_neg (by norm_num : (-1/100 : ℚ) < 0)]; norm_num,
    cadres_struct (fun _ => (0 : ℚ)) 0 3 (-1/100) (1/10) 20 10 10
      [(0, -1/100), (1/5, 19/100), (2/5, 39/100), (3/5, 59/100), (4/5, 79/100), (1, 99/100)]
      (by norm_num [methode_tir_trouver_premiers_cadres, cadres_go, generateur_cadre,
        generateur_cadre_go, isclose, abs_of_pos])
      (by rw [abs_of_neg (by norm_num : (-1/100 : ℚ) < 0)]; norm_num)⟩

/-! ### Claim C3: the scan and its bracket-count bound -/

set_option maxHeartbeats 2000000 in
/-- C3: evaluation of `methode_tir.trouver_premiers_cadres` at the
failing input.  With `N = 1` requested and a function for which every
window yields a bracket, the code returns six brackets: the loop bound
is the hardcoded constant `6`, not the parameter `N` (the near-duplicate
`mt.py` uses `N` as the claim describes). -/
theorem methode_tir_cadres_hardcode_six :
    methode_tir_trouver_premiers_cadres (fun _ => (0 : ℚ)) 0 1 (-1/100) (1/10) 20 10 10 =
      some [(0, -1/100), (1/5, 19/100), (2/5, 39/100), (3/5, 59/100), (4/5, 79/100),
        (1, 99/100)] := by
  norm_num [methode_tir_trouver_premiers_cadres, cadres_go, generateur_cadre,
    generateur_cadre_go, isclose, abs_of_pos]

/-! ### Claim C4: behaviour at the energy ceiling -/

set_option maxHeartbeats 2000000 in
/-- C4 counterexample: the scan origin jumps from `1/5` to `2/5`, past
the ceiling `val_max = 3/10`, before the requested single bracket is
found; `mt.py`'s `trouver_premiers_cadres` returns the empty list
silently instead of failing, because its error test is the exact
equality `val_max == val_0`. -/
theorem mt_cadres_no_error_on_overshoot :
    mt_trouver_premiers_cadres (fun _ => (1 : ℚ)) 0 1 (-1/100) (1/10) 20 (3/10) 5 =
      some (Except.ok []) := by
  norm_num [mt_trouver_premiers_cadres, cadres_go, generateur_cadre,
    generateur_cadre_go, isclose, abs_of_pos]

/-- C4 amended: `mt.py`'s variant raises the exhaustion error iff the
final scan origin lands exactly on `val_max`; when the origin overshoots
`val_max` strictly, the partial bracket list is returned with no error.
(The `methode_tir.py` variant never raises at all.) -/
theorem mt_cadres_error_iff (f : ℚ → ℚ) (v0 : ℚ) (N : ℕ) (D rtol : ℚ) (mi : ℕ)
    (vmax : ℚ) (fuel : ℕ) (v : ℚ) (l : List (ℚ × ℚ))
    (h : cadres_go f D rtol mi vmax N fuel v0 [] = some (v, l)) :
    (mt_trouver_premiers_cadres f v0 N D rtol mi vmax fuel =
        some (Except.error (ErreurTir.valeurMaximale vmax)) ↔ vmax = v) ∧
    (vmax ≠ v → mt_trouver_premiers_cadres f v0 N D rtol mi vmax fuel =
        some (Except.ok l)) := by
  have hrw : mt_trouver_premiers_cadres f v0 N D rtol mi vmax fuel =
      some (if vmax = v then Except.error (ErreurTir.valeurMaximale vmax)
        else Except.ok l) := by
    unfold mt_trouver_premiers_cadres
    rw [h]
    rfl
  rw [hrw]
  by_cases hv : vmax = v
  · rw [if_pos hv]
    exact ⟨⟨fun _ => hv, fun _ => rfl⟩, fun hne => absurd hv hne⟩
  · rw [if_neg hv]
    refine ⟨⟨fun he => ?_, fun hveq => absurd hveq hv⟩, fun _ => rfl⟩
    exact absurd (Option.some.inj he) (by simp)

set_option maxHeartbeats 2000000 in
theorem mt_cadres_error_iff_witness :
    cadres_go (fun _ => (1 : ℚ)) (-1/100) (1/10) 20 (3/10) 1 5 0 [] = some (2/5, []) ∧
    ((mt_trouver_premiers_cadres (fun _ => (1 : ℚ)) 0 1 (-1/100) (1/10) 20 (3/10) 5 =
        some (Except.error (ErreurTir.valeurMaximale (3/10))) ↔ (3/10 : ℚ) = 2/5) ∧
      ((3/10 : ℚ) ≠ 2/5 →
        mt_trouver_premiers_cadres (fun _ => (1 : ℚ)) 0 1 (-1/100) (1/10) 20 (3/10) 5 =
          some (Except.ok []))) :=
  ⟨by norm_num [cadres_go, generateur_cadre, generateur_cadre_go, isclose, abs_of_pos],
    mt_cadres_error_iff (fun _ => (1 : ℚ)) 0 1 (-1/100) (1/10) 20 (3/10) 5 (2/5) []
      (by norm_num [cadres_go, generateur_cadre, generateur_cadre_go, isclose, abs_of_pos])⟩

/-! ### Claim C10: ignored configuration of the root search -/

/-- C10: `methode_tir.trouver_premieres_racines` calls the bracket scan
with the literal values `D=-0.01, rtol=0.1, max_iter=20, val_max=10`,
so its result — and hence the result of `solutions_mt` — does not depend
on the `D`, `rtol`, `max_iter` and `val_max` arguments. -/
theorem racines_indep_params (brentq : (ℚ → ℚ) → ℚ → ℚ → ℚ) (f : ℚ → ℚ) (val_0 : ℚ)
    (N : ℕ) (D rtol : ℚ) (max_iter : ℕ) (val_max : ℚ) (D' rtol' : ℚ)
    (max_iter' : ℕ) (val_max' : ℚ) (fuel : ℕ) (schro : ℚ → List ℚ) (L : ℚ)
    (N_points N_sols : ℕ) :
    trouver_premieres_racines brentq f val_0 N D rtol max_iter val_max fuel =
      trouver_premieres_racines brentq f val_0 N D' rtol' max_iter' val_max' fuel ∧
    solutions_mt schro brentq L N_points N_sols val_0 D rtol max_iter val_max fuel =
      solutions_mt schro brentq L N_points N_sols val_0 D' rtol' max_iter' val_max' fuel :=
  ⟨rfl, rfl⟩

/-! ### Sum-of-squares helper lemmas for the normaliser -/

lemma sommeCarres_nil : sommeCarres [] = 0 := rfl

lemma sommeCarres_cons (x : ℝ) (v : List ℝ) :
    sommeCarres (x :: v) = x ^ 2 + sommeCarres v := by
  simp [sommeCarres]

lemma sommeCarres_nonneg (v : List ℝ) : 0 ≤ sommeCarres v := by
  induction v with
  | nil => rw [sommeCarres_nil]
  | cons x t ih =>
    rw [sommeCarres_cons]
    positivity

lemma sommeCarres_pos (v : List ℝ) (x : ℝ) (hx : x ∈ v) (hx0 : x ≠ 0) :
    0 < sommeCarres v := by
  induction v with
  | nil => cases hx
  | cons y t ih =>
    rw [sommeCarres_cons]
    rcases List.mem_cons.mp hx with rfl | hxt
    · have : 0 < x ^ 2 := by positivity
      linarith [sommeCarres_nonneg t]
    · have := ih hxt
      linarith [sq_nonneg y]

lemma sommeCarres_map_div (v : List ℝ) (c : ℝ) :
    sommeCarres (v.map (fun x => x / c)) = sommeCarres v / c ^ 2 := by
  induction v with
  | nil => simp [sommeCarres_nil]
  | cons x t ih =>
    rw [List.map_cons, sommeCarres_cons, sommeCarres_cons, ih, div_pow, div_add_div_same]

lemma sommeCarres_all_zero (v : List ℝ) (h : ∀ x ∈ v, x = 0) : sommeCarres v = 0 := by
  induction v with
  | nil => rfl
  | cons x t ih =>
    rw [sommeCarres_cons, h x (List.mem_cons_self x t), ih (fun y hy => h y (List.mem_cons_of_mem x hy))]
    norm_num

/-! ### Claim C6: all-zero input to the normaliser -/

/-- C6 counterexample: on the all-zero input `[0, 0]` the normaliser
raises nothing — it divides by `sqrt(0) = 0` and silently returns the
non-finite (`NaN`) result, modelled by `none` entries.  No
`ZeroNormError` check exists in the source. -/
theorem normaliseur_zero_input_nan :
    normaliseur [0, 0] = [none, none] := by
  have h : sommeCarres [(0 : ℝ), 0] = 0 := by
    rw [sommeCarres_cons, sommeCarres_cons, sommeCarres_nil]
    norm_num
  simp [normaliseur, divF, h, Real.sqrt_zero]

/-- C6 amended: on every all-zero input the normaliser performs the
`0 / 0` division unconditionally and silently returns the NaN-valued
(non-finite) result; no error of any kind is raised. -/
theorem normaliseur_all_zero (v : List ℝ) (h : ∀ x ∈ v, x = 0) :
    normaliseur v = v.map (fun _ => none) := by
  unfold normaliseur
  rw [sommeCarres_all_zero v h, Real.sqrt_zero]
  simp [divF]

theorem normaliseur_all_zero_witness :
    (∀ x ∈ ([0, 0, 0] : List ℝ), x = 0) ∧
    normaliseur [0, 0, 0] = [none, none, none] :=
  ⟨by simp, by rw [normaliseur_all_zero [0, 0, 0] (by simp)]; simp⟩

/-! ### Claim C7: the normaliser on non-zero input -/

/-- C7: on any input with a non-zero entry the normaliser returns the
input divided by the square root of its sum of squares, the resulting
values have sum of squares exactly `1`, and an already-normalised input
(sum of squares `1`) is returned unchanged. -/
theorem normaliseur_correct (v : List ℝ) (h : ∃ x ∈ v, x ≠ 0) :
    normaliseur v = v.map (fun x => some (x / Real.sqrt (sommeCarres v))) ∧
    sommeCarres (v.map (fun x => x / Real.sqrt (sommeCarres v))) = 1 ∧
    (sommeCarres v = 1 → normaliseur v = v.map some) := by
  obtain ⟨x, hx, hx0⟩ := h
  have hpos : 0 < sommeCarres v := sommeCarres_pos v x hx hx0
  have hs : Real.sqrt (sommeCarres v) ≠ 0 :=
    ne_of_gt (Real.sqrt_pos.mpr hpos)
  refine ⟨?_, ?_, ?_⟩
  · unfold normaliseur
    simp [divF, hs]
  · rw [sommeCarres_map_div, Real.sq_sqrt (le_of_lt hpos)]
    exact div_self (ne_of_gt hpos)
  · intro h1
    unfold normaliseur
    rw [h1, Real.sqrt_one]
    simp [divF]

theorem normaliseur_correct_witness :
    (∃ x ∈ ([1, 0] : List ℝ), x ≠ 0) ∧
    (normaliseur [1, 0] =
        ([1, 0] : List ℝ).map (fun x => some (x / Real.sqrt (sommeCarres [1, 0]))) ∧
      sommeCarres (([1, 0] : List ℝ).map (fun x => x / Real.sqrt (sommeCarres [1, 0]))) = 1 ∧
      (sommeCarres [(1 : ℝ), 0] = 1 → normaliseur [1, 0] = ([1, 0] : List ℝ).map some)) :=
  ⟨⟨1, by simp, one_ne_zero⟩,
    normaliseur_correct [1, 0] ⟨1, by simp, one_ne_zero⟩⟩

/-! ### Claim C9: shapes of the solver outputs -/

lemma linspace_length (a b : ℚ) (n : ℕ) : (linspace a b n).length = n := by
  unfold linspace
  rw [List.length_map, List.length_range]

/-- C9 counterexample: for `solutions_mef` with `N_points = 5` the
eigenfunction table's column has `3 = N_points - 2` rows, not the
`N_points` rows stated by the claim (and by the source's docstring). -/
theorem solutions_mef_rows_ne_N_points :
    ((solutions_mef (fun l => l) [(0 : ℝ)] [[1, 1, 1]] 2 5).2.2.getD 0 []).length = 3 ∧
    ((solutions_mef (fun l => l) [(0 : ℝ)] [[1, 1, 1]] 2 5).2.2.getD 0 []).length ≠ 5 := by
  constructor <;> simp [solutions_mef, normaliseur]

/-- C9 amended: both solvers return `(energies, grid, table)` with the
table columns aligned with the grid and one column, the normalised
profile, per returned energy; for the finite-element solver the grid and
the columns have `N_points - 2` entries (boundary points excluded) and
there are `N_sols` columns, while for the shooting solver the grid and
the columns have `N_points` entries (boundary included) and the number
of columns is the number of roots actually found, not necessarily
`N_sols`. -/
theorem solutions_shapes :
    (∀ (minvDot : List ℝ → List ℝ) (eigvals : List ℝ) (eigvecs : List (List ℝ))
        (L : ℚ) (N_points N_sols : ℕ),
      (∀ l : List ℝ, (minvDot l).length = l.length) →
      eigvecs.length = N_sols →
      (∀ col ∈ eigvecs, col.length = N_points - 2) →
      (solutions_mef minvDot eigvals eigvecs L N_points).1 = eigvals ∧
      (solutions_mef minvDot eigvals eigvecs L N_points).2.1.length = N_points - 2 ∧
      (solutions_mef minvDot eigvals eigvecs L N_points).2.2 =
        eigvecs.map (fun col => normaliseur (minvDot col)) ∧
      (solutions_mef minvDot eigvals eigvecs L N_points).2.2.length = N_sols ∧
      (∀ c ∈ (solutions_mef minvDot eigvals eigvecs L N_points).2.2,
        c.length = N_points - 2)) ∧
    (∀ (schro : ℚ → List ℚ) (brentq : (ℚ → ℚ) → ℚ → ℚ → ℚ) (L : ℚ)
        (N_points N_sols : ℕ) (val_0 D rtol : ℚ) (max_iter : ℕ) (val_max : ℚ)
        (fuel : ℕ) (r : List ℚ × List ℚ × List (List (Option ℝ))),
      (∀ E, (schro E).length = N_points) →
      solutions_mt schro brentq L N_points N_sols val_0 D rtol max_iter val_max fuel =
        some r →
      r.2.1.length = N_points ∧
      r.2.2 = r.1.map (fun E => normaliseur ((schro E).map (fun q : ℚ => (q : ℝ)))) ∧
      r.2.2.length = r.1.length ∧
      (∀ c ∈ r.2.2, c.length = N_points)) := by
  constructor
  · intro minvDot eigvals eigvecs L N_points N_sols hm hlen hcol
    refine ⟨rfl, ?_, rfl, ?_, ?_⟩
    · simp only [solutions_mef, List.length_dropLast, List.length_drop, linspace_length]
      omega
    · simp [solutions_mef, hlen]
    · intro c hc
      simp only [solutions_mef, List.mem_map] at hc
      obtain ⟨col, hcolmem, rfl⟩ := hc
      simp [normaliseur, hm, hcol col hcolmem]
  · intro schro brentq L N_points N_sols val_0 D rtol max_iter val_max fuel r hs hsol
    simp only [solutions_mt] at hsol
    obtain ⟨rac, _, hr⟩ := Option.map_eq_some'.mp hsol
    subst hr
    refine ⟨by simp [linspace_length], rfl, by simp, ?_⟩
    intro c hc
    simp only [List.mem_map] at hc
    obtain ⟨E, _, rfl⟩ := hc
    unfold normaliseur
    rw [List.length_map, List.length_map, hs E]

set_option maxHeartbeats 2000000 in
theorem solutions_shapes_witness :
    ((∀ l : List ℝ, ((fun l => l) l).length = l.length) ∧
      ([[1, 1, 1]] : List (List ℝ)).length = 1 ∧
      (∀ col ∈ ([[1, 1, 1]] : List (List ℝ)), col.length = 5 - 2) ∧
      ((solutions_mef (fun l => l) [(0 : ℝ)] [[1, 1, 1]] 2 5).1 = [(0 : ℝ)] ∧
        (solutions_mef (fun l => l) [(0 : ℝ)] [[1, 1, 1]] 2 5).2.1.length = 5 - 2 ∧
        (solutions_mef (fun l => l) [(0 : ℝ)] [[1, 1, 1]] 2 5).2.2 =
          ([[1, 1, 1]] : List (List ℝ)).map (fun col => normaliseur ((fun l => l) col)) ∧
        (solutions_mef (fun l => l) [(0 : ℝ)] [[1, 1, 1]] 2 5).2.2.length = 1 ∧
        (∀ c ∈ (solutions_mef (fun l => l) [(0 : ℝ)] [[1, 1, 1]] 2 5).2.2,
          c.length = 5 - 2))) ∧
    ((∀ E : ℚ, ((fun _ : ℚ => ([0, 0, 0] : List ℚ)) E).length = 3) ∧
      solutions_mt (fun _ => ([0, 0, 0] : List ℚ)) (fun _ a _ => a) 1 3 1 0 (-1/100)
          (1/10) 20 10 10 =
        some ([0, 1/5, 2/5, 3/5, 4/5, 1], linspace (-1) 1 3,
          ([0, 1/5, 2/5, 3/5, 4/5, 1] : List ℚ).map
            (fun E => normaliseur (([0, 0, 0] : List ℚ).map (fun q : ℚ => (q : ℝ))))) ∧
      ((linspace (-1) 1 3).length = 3 ∧
        ([0, 1/5, 2/5, 3/5, 4/5, 1] : List ℚ).map
            (fun E => normaliseur (([0, 0, 0] : List ℚ).map (fun q : ℚ => (q : ℝ)))) =
          ([0, 1/5, 2/5, 3/5, 4/5, 1] : List ℚ).map
            (fun E => normaliseur (([0, 0, 0] : List ℚ).map (fun q : ℚ => (q : ℝ)))) ∧
        (([0, 1/5, 2/5, 3/5, 4/5, 1] : List ℚ).map
            (fun E => normaliseur (([0, 0, 0] : List ℚ).map (fun q : ℚ => (q : ℝ))))).length =
          ([0, 1/5, 2/5, 3/5, 4/5, 1] : List ℚ).length ∧
        (∀ c ∈ ([0, 1/5, 2/5, 3/5, 4/5, 1] : List ℚ).map
            (fun E => normaliseur (([0, 0, 0] : List ℚ).map (fun q : ℚ => (q : ℝ)))),
          c.length = 3))) :=
  ⟨⟨fun _ => rfl, rfl, by simp,
    (solutions_shapes.1 (fun l => l) [(0 : ℝ)] [[1, 1, 1]] 2 5 1
      (fun _ => rfl) rfl (by simp))⟩,
    ⟨fun _ => rfl,
      by norm_num [solutions_mt, trouver_premieres_racines,
        methode_tir_trouver_premiers_cadres, cadres_go, generateur_cadre,
        generateur_cadre_go, isclose, abs_of_pos, List.getLastD, List.replicate],
      (solutions_shapes.2 (fun _ => ([0, 0, 0] : List ℚ)) (fun _ a _ => a) 1 3 1 0
        (-1/100) (1/10) 20 10 10
        ([0, 1/5, 2/5, 3/5, 4/5, 1], linspace (-1) 1 3,
          ([0, 1/5, 2/5, 3/5, 4/5, 1] : List ℚ).map
            (fun E => normaliseur (([0, 0, 0] : List ℚ).map (fun q : ℚ => (q : ℝ)))))
        (fun _ => rfl)
        (by norm_num [solutions_mt, trouver_premieres_racines,
          methode_tir_trouver_premiers_cadres, cadres_go, generateur_cadre,
          generateur_cadre_go, isclose, abs_of_pos, List.getLastD, List.replicate]))⟩⟩

end Devoir3
